import Mathlib

/-!
Verification of the triqler-plugin pipeline (`src/triqler_runner.py`).

The Python source is shallowly embedded below.  Files are modelled as
lists of lines (strings without the trailing newline); the on-disk state
touched by the annotation stage is modelled as a partial map from paths
to raw file contents.  External subprocesses (the format converters, the
quantification engine) are modelled by their observable result (the exit
code), as the pipeline only inspects that.  The character-level string
primitives (`strip`, `split`, `lower`) are given explicit structural
definitions over `List Char` so that every definition evaluates inside
the kernel; they agree with the Python primitives on the ASCII data the
pipeline handles.
-/

namespace TriqlerRunner

/-! ## String primitives -/

/-- The whitespace characters removed by Python `str.strip()` (ASCII
range; the Unicode whitespace code points do not occur in the data
handled here). -/
def isPySpace (c : Char) : Bool :=
  c = ' ' || c = '\t' || c = '\n' || c = '\r' || c = '\x0b' || c = '\x0c'

/-- Python `line.strip()`: drop leading and trailing whitespace. -/
def pyStrip (s : String) : String :=
  (((s.data.dropWhile isPySpace).reverse.dropWhile isPySpace).reverse).asString

/-- Separator-split of a character list on a single character, keeping
empty fields. -/
def splitOnCharAux (sep : Char) : List Char → List Char → List (List Char)
  | [], acc => [acc.reverse]
  | c :: cs, acc =>
    if c = sep then acc.reverse :: splitOnCharAux sep cs []
    else splitOnCharAux sep cs (c :: acc)

/-- Python `s.split(sep)` for a single-character separator: keeps empty
fields and yields `[""]` on the empty string. -/
def pySplit (sep : Char) (s : String) : List String :=
  (splitOnCharAux sep s.data []).map List.asString

/-- Python `s.split('\t')`. -/
def splitTab (s : String) : List String := pySplit '\t' s

/-- Python `str.lower()` on one ASCII character. -/
def lowerChar (c : Char) : Char :=
  if 'A' ≤ c ∧ c ≤ 'Z' then Char.ofNat (c.toNat + 32) else c

/-- Python `s.lower()` (ASCII case folding, which is all the header
comparison needs). -/
def lowerStr (s : String) : String := (s.data.map lowerChar).asString

/-- Python `";".join(parts)` and friends. -/
def pyJoin (sep : String) (parts : List String) : String :=
  String.intercalate sep parts

/-! ## ConditionMapper: `export_condition_mapping` -/

/-- `next(i for i, col in enumerate(header) if col.lower() == 'condition')`:
the index of the first case-insensitive match, scanning from `n`. -/
def findCondIdx : List String → Nat → Option Nat
  | [], _ => none
  | c :: cs, n => if lowerStr c = "condition" then some n else findCondIdx cs (n + 1)

/-- The condition column index: first header column whose lowercased name
is `"condition"`, falling back to index 1 when the generator raises
`StopIteration`. -/
def cond_idx (header : List String) : Nat :=
  match findCondIdx header 0 with
  | some i => i
  | none => 1

/-- `f.readline()` on the modelled file: the first line, `""` at EOF. -/
def headerLine : List String → String
  | [] => ""
  | h :: _ => h

/-- The remaining lines iterated by `for line in f`. -/
def dataLines : List String → List String
  | [] => []
  | _ :: t => t

/-- The condition cell contributed by one data line, if the stripped,
tab-split line reaches the condition column (`len(parts) > cond_idx`). -/
def rowCondition (ci : Nat) (line : String) : Option String :=
  (splitTab (pyStrip line))[ci]?

/-- All condition values added to the Python `set`, in file order
(`conditions.add(parts[cond_idx])` over the data lines). -/
def extractedConditions (lines : List String) : List String :=
  (dataLines lines).filterMap
    (rowCondition (cond_idx (splitTab (pyStrip (headerLine lines)))))

/-- The Python `set` of distinct condition values. -/
def conditionSet (lines : List String) : Finset String :=
  (extractedConditions lines).toFinset

/-- `sorted(list(conditions))`: Python `sorted` on strings is the unique
enumeration of the set in the code-point lexicographic order, which is
exactly the `String` linear order. -/
def sorted_conditions (lines : List String) : List String :=
  (conditionSet lines).sort (· ≤ ·)

/-- `enumerate(sorted_conditions, 1)`. -/
def numberFrom (n : Nat) : List String → List (Nat × String)
  | [] => []
  | c :: cs => (n, c) :: numberFrom (n + 1) cs

/-- The `(id, label)` pairs written to `condition_mapping.tsv`. -/
def condition_mapping (lines : List String) : List (Nat × String) :=
  numberFrom 1 (sorted_conditions lines)

/-- The bytes written to `condition_mapping.tsv`: the header line, then one
`f"{idx}\t{cond}\n"` per pair. -/
def mappingFileContent (lines : List String) : String :=
  "ID\tCondition\n" ++
    String.join ((condition_mapping lines).map
      (fun p => toString p.1 ++ "\t" ++ p.2 ++ "\n"))

theorem numberFrom_map_fst (n : Nat) (l : List String) :
    (numberFrom n l).map Prod.fst = List.range' n l.length := by
  induction l generalizing n with
  | nil => rfl
  | cons c cs ih => simp [numberFrom, List.range', ih]

theorem numberFrom_map_snd (n : Nat) (l : List String) :
    (numberFrom n l).map Prod.snd = l := by
  induction l generalizing n with
  | nil => rfl
  | cons c cs ih => simp [numberFrom, ih]

/-- **C1.** For every input table, the condition mapping's IDs are exactly
the contiguous range `1..N` with `N` the number of distinct condition
values, and its labels are strictly increasing in the default string
order. -/
theorem condition_mapping_ids_contiguous_labels_sorted (lines : List String) :
    (condition_mapping lines).map Prod.fst
        = List.range' 1 (conditionSet lines).card
      ∧ List.Sorted (· < ·) ((condition_mapping lines).map Prod.snd) := by
  constructor
  · rw [condition_mapping, numberFrom_map_fst, sorted_conditions,
      Finset.length_sort]
  · rw [condition_mapping, numberFrom_map_snd]
    exact Finset.sort_sorted_lt _

theorem findCondIdx_eq_none (l : List String) (n : Nat) :
    findCondIdx l n = none ↔ ∀ c ∈ l, lowerStr c ≠ "condition" := by
  induction l generalizing n with
  | nil => simp [findCondIdx]
  | cons c cs ih =>
    by_cases hc : lowerStr c = "condition" <;>
      simp [findCondIdx, hc, ih]

theorem findCondIdx_eq_some (l : List String) (n m : Nat)
    (h : findCondIdx l n = some m) :
    ∃ i, m = n + i ∧ i < l.length ∧ lowerStr (l.getD i "") = "condition"
      ∧ ∀ j < i, lowerStr (l.getD j "") ≠ "condition" := by
  induction l generalizing n m with
  | nil => simp [findCondIdx] at h
  | cons c cs ih =>
    by_cases hc : lowerStr c = "condition"
    · refine ⟨0, ?_, by simp, by simpa using hc, by simp⟩
      simp [findCondIdx, hc] at h
      omega
    · simp only [findCondIdx, hc, if_false] at h
      obtain ⟨i, hm, hi, hcond, hfirst⟩ := ih (n + 1) m h
      refine ⟨i + 1, by omega, by simpa using hi, by simpa using hcond, ?_⟩
      intro j hj
      cases j with
      | zero => simpa using hc
      | succ j => simpa using hfirst j (by omega)

/-- **C6.** The condition column is a pure function of the header: the
first column whose lowercased name is `"condition"`, else index 1; a data
row contributes a value to the distinct-condition set exactly when it is
long enough to reach that index, and then contributes the cell at that
index. -/
theorem cond_idx_first_match_or_fallback (lines : List String) :
    ((cond_idx (splitTab (pyStrip (headerLine lines)))
          < (splitTab (pyStrip (headerLine lines))).length
        ∧ lowerStr ((splitTab (pyStrip (headerLine lines))).getD
            (cond_idx (splitTab (pyStrip (headerLine lines)))) "")
            = "condition"
        ∧ ∀ j < cond_idx (splitTab (pyStrip (headerLine lines))),
            lowerStr ((splitTab (pyStrip (headerLine lines))).getD j "")
              ≠ "condition")
      ∨ ((∀ col ∈ splitTab (pyStrip (headerLine lines)),
            lowerStr col ≠ "condition")
        ∧ cond_idx (splitTab (pyStrip (headerLine lines))) = 1))
    ∧ ∀ c, c ∈ conditionSet lines ↔
        ∃ line ∈ dataLines lines,
          (splitTab (pyStrip line))[cond_idx
            (splitTab (pyStrip (headerLine lines)))]? = some c := by
  constructor
  · set header := splitTab (pyStrip (headerLine lines)) with hh
    rcases he : findCondIdx header 0 with _ | i
    · exact Or.inr ⟨(findCondIdx_eq_none header 0).mp he, by simp [cond_idx, he]⟩
    · obtain ⟨k, hk, hlen, hcond, hfirst⟩ := findCondIdx_eq_some header 0 i he
      have hci : cond_idx header = k := by simp [cond_idx, he]; omega
      exact Or.inl ⟨hci ▸ hlen, by rw [hci]; exact hcond,
        by rw [hci]; exact hfirst⟩
  · intro c
    simp [conditionSet, extractedConditions, rowCondition, List.mem_filterMap]

/-- **C8.** The mapping file is a deterministic function of the multiset
of extracted condition values: two runs whose set accumulation sees the
same values in any order (in particular, two runs on the very same table)
write byte-identical `condition_mapping.tsv` files. -/
theorem mapping_file_deterministic (lines₁ lines₂ : List String)
    (h : (extractedConditions lines₁).Perm (extractedConditions lines₂)) :
    mappingFileContent lines₁ = mappingFileContent lines₂ := by
  have hset : conditionSet lines₁ = conditionSet lines₂ := by
    ext a
    simp [conditionSet, List.mem_toFinset, h.mem_iff]
  unfold mappingFileContent condition_mapping sorted_conditions
  rw [hset]

/-- Witness for C8 at a concrete pair of tables with permuted rows. -/
theorem mapping_file_deterministic_witness :
    (extractedConditions ["run\tcondition", "r1\tX", "r2\tY"]).Perm
        (extractedConditions ["run\tcondition", "r2\tY", "r1\tX"])
      ∧ mappingFileContent ["run\tcondition", "r1\tX", "r2\tY"]
          = mappingFileContent ["run\tcondition", "r2\tY", "r1\tX"] :=
  ⟨by decide, mapping_file_deterministic _ _ (by decide)⟩

/-- **C10.** The mapping file always starts with the header line
`ID\tCondition`, and when no condition value at all is extracted the file
is exactly that header line (it is still written, not skipped). -/
theorem mapping_file_header_always_written (lines : List String) :
    (∃ rest, mappingFileContent lines = "ID\tCondition\n" ++ rest)
      ∧ (conditionSet lines = ∅ → mappingFileContent lines = "ID\tCondition\n") := by
  refine ⟨⟨_, rfl⟩, fun h => ?_⟩
  unfold mappingFileContent condition_mapping sorted_conditions
  rw [h, Finset.sort_empty]
  rfl

/-- Witness for C10 at a table with a header but no data rows. -/
theorem mapping_file_header_always_written_witness :
    conditionSet ["run\tcondition"] = ∅
      ∧ mappingFileContent ["run\tcondition"] = "ID\tCondition\n" :=
  ⟨by decide, (mapping_file_header_always_written ["run\tcondition"]).2 (by decide)⟩

/-- Witness for C6: the membership characterisation applied to a concrete
table whose header names the condition column as `Condition`. -/
theorem cond_idx_first_match_or_fallback_witness :
    "X" ∈ conditionSet ["run\tCondition", "r1\tX"] :=
  ((cond_idx_first_match_or_fallback ["run\tCondition", "r1\tX"]).2 "X").mpr
    ⟨"r1\tX", by decide, by decide⟩

/-! ## AnnotationMerger: `add_gene_names`

The on-disk state is a partial map from paths to raw file contents.  The
tab-separated result files produced by the engine contain no quote or
escape characters, so the `csv` reader/writer pair degenerates to
tab-splitting and tab-joining (with the writer's `\r\n` line terminator);
the embedding below uses that concrete form.  Header rows are assumed to
have pairwise distinct column names, as the `DictReader` row dictionaries
collapse duplicates. -/

/-- The modelled disk: a partial map from paths to file contents. -/
def FS : Type := String → Option String

/-- Creating/truncating and then writing a file. -/
def fsSet (fs : FS) (p c : String) : FS :=
  fun q => if q = p then some c else fs q

/-- Removing a path (the source side of `os.replace`). -/
def fsErase (fs : FS) (p : String) : FS :=
  fun q => if q = p then none else fs q

/-- Universal-newline translation of one line: text-mode reading turns
`\r\n` into `\n`, i.e. drops the trailing `\r`. -/
def stripCR (s : String) : String :=
  if s.data.getLast? = some '\r' then s.data.dropLast.asString else s

/-- The table seen by `csv.DictReader(f, delimiter="\t")` on a raw file:
lines split on newlines (universal-newline mode), blank rows skipped,
cells split on tabs. -/
def parseTSV (content : String) : List (List String) :=
  (((pySplit '\n' content).map stripCR).filter (fun l => l != "")).map splitTab

/-- The bytes `csv.DictWriter(..., delimiter="\t")` emits for a list of
rows: tab-joined cells, each row terminated by `\r\n`. -/
def serializeTSV (rows : List (List String)) : String :=
  String.join (rows.map (fun r => pyJoin "\t" r ++ "\r\n"))

/-- Python `fieldnames.index(x)` (only evaluated under `x ∈ fieldnames`). -/
def pyIndex (x : String) : List String → Nat
  | [] => 0
  | c :: cs => if c = x then 0 else pyIndex x cs + 1

/-- `mapping.get(acc, "")` on the gene-name dictionary. -/
def lookupGene (mapping : List (String × String)) (acc : String) : String :=
  (List.lookup acc mapping).getD ""

/-- Lines 166–169 of the source: split the `protein` cell on `;`, look
every accession up in the gene map (default `""`), drop the falsy
entries, and rejoin with `;`. -/
def geneNameOf (mapping : List (String × String)) (protein : String) : String :=
  pyJoin ";" (((pySplit ';' protein).map (lookupGene mapping)).filter
    (fun g => g != ""))

/-- One `writer.writerow(row)` step: `none` models the exceptions the
`csv` round trip raises on malformed rows (a row longer than the header
puts its excess under the `DictReader` rest key and `DictWriter` then
rejects the dictionary; a row too short to reach the `protein` column
reads `None` there and `.split` fails).  Otherwise the row, padded with
the writer's empty rest-value for missing trailing fields, gains the
`gene_name` cell right after `protein`. -/
def rewriteRow (mapping : List (String × String)) (fieldCount protIdx : Nat)
    (cells : List String) : Option (List String) :=
  if fieldCount < cells.length then none
  else
    match cells[protIdx]? with
    | none => none
    | some protein =>
      let padded := cells ++ List.replicate (fieldCount - cells.length) ""
      some (padded.take (protIdx + 1)
        ++ ([geneNameOf mapping protein] ++ padded.drop (protIdx + 1)))

/-- Structural `mapM` over `Option`, used to state the full successful
rewrite. -/
def optionMapM (f : α → Option β) : List α → Option (List β)
  | [] => some []
  | a :: as =>
    match f a with
    | none => none
    | some b => (optionMapM f as).map (b :: ·)

/-- The `for row in reader` loop writing rewritten rows to the temporary
file.  `failAt = some n` injects a failure (an induced exception) just
before row `n` is written; the result is the list of rows that reached
the temporary file and whether the loop completed. -/
def writeRows (mapping : List (String × String)) (fieldCount protIdx : Nat)
    (failAt : Option Nat) : List (List String) → Nat → List (List String) × Bool
  | [], _ => ([], true)
  | r :: rs, n =>
    if failAt = some n then ([], false)
    else
      match rewriteRow mapping fieldCount protIdx r with
      | none => ([], false)
      | some r' =>
        let rest := writeRows mapping fieldCount protIdx failAt rs (n + 1)
        (r' :: rest.1, rest.2)

/-- The fully rewritten file contents, defined (`some`) exactly when every
row rewrites cleanly: the header gains `gene_name` right after `protein`. -/
def fullRewrite (mapping : List (String × String)) (content : String) :
    Option String :=
  let table := parseTSV content
  let fieldnames := table.headD []
  if "protein" ∈ fieldnames then
    let protIdx := pyIndex "protein" fieldnames
    let newFieldnames := fieldnames.take (protIdx + 1)
      ++ ["gene_name"] ++ fieldnames.drop (protIdx + 1)
    (optionMapM (rewriteRow mapping fieldnames.length protIdx) table.tail).map
      (fun rows => serializeTSV (newFieldnames :: rows))
  else none

/-- Lines 146–174 of the source, one iteration of the per-file loop of
`add_gene_names`: open the original, create the `.tmp` sibling, skip
(`continue`) when there is no `protein` column, otherwise stream the
rewritten rows into the temporary file and, only after the whole rewrite
succeeded, atomically `os.replace` the temporary over the original.  An
exception (`failAt`, or a malformed row) abandons the iteration with the
warning branch. -/
def processProteinFile (mapping : List (String × String)) (failAt : Option Nat)
    (fs : FS) (path : String) : FS :=
  match fs path with
  | none => fs
  | some content =>
    let tmp := path ++ ".tmp"
    let fs1 := fsSet fs tmp ""
    let table := parseTSV content
    let fieldnames := table.headD []
    if "protein" ∈ fieldnames then
      let protIdx := pyIndex "protein" fieldnames
      let newFieldnames := fieldnames.take (protIdx + 1)
        ++ ["gene_name"] ++ fieldnames.drop (protIdx + 1)
      let written := writeRows mapping fieldnames.length protIdx failAt table.tail 0
      if written.2 then
        fsErase (fsSet fs1 path (serializeTSV (newFieldnames :: written.1))) tmp
      else
        fsSet fs1 tmp (serializeTSV (newFieldnames :: written.1))
    else fs1

theorem ne_append_tmp (p : String) : p ≠ p ++ ".tmp" := by
  intro h
  have hlen := congrArg String.length h
  rw [String.length_append] at hlen
  have h4 : (".tmp" : String).length = 4 := rfl
  omega

/-- **C7.** A protein result file whose header has no `protein` column is
skipped: its contents on disk after the per-file pass are byte-identical
to what they were before. -/
theorem no_protein_column_leaves_file_identical
    (mapping : List (String × String)) (failAt : Option Nat) (fs : FS)
    (path content : String)
    (hc : fs path = some content)
    (hp : "protein" ∉ (parseTSV content).headD []) :
    processProteinFile mapping failAt fs path path = some content := by
  simp only [processProteinFile, hc, if_neg hp]
  simp only [fsSet, if_neg (ne_append_tmp path)]
  exact hc

/-- Witness for C7: a concrete file with a `peptide` header survives the
pass unchanged. -/
theorem no_protein_column_leaves_file_identical_witness :
    processProteinFile [("P1", "GENEA")] none
        (fun q => if q = "out/proteins.1vs2.tsv"
          then some "peptide\tq_value\nAAA\t0.01\n" else none)
        "out/proteins.1vs2.tsv" "out/proteins.1vs2.tsv"
      = some "peptide\tq_value\nAAA\t0.01\n" :=
  no_protein_column_leaves_file_identical _ _ _ _ _ (by decide) (by decide)

theorem writeRows_complete (mapping : List (String × String)) (fc pi : Nat)
    (failAt : Option Nat) (rs : List (List String)) (n : Nat)
    (h : (writeRows mapping fc pi failAt rs n).2 = true) :
    optionMapM (rewriteRow mapping fc pi) rs
      = some (writeRows mapping fc pi failAt rs n).1 := by
  induction rs generalizing n with
  | nil => rfl
  | cons r rs ih =>
    by_cases hf : failAt = some n
    · simp [writeRows, hf] at h
    · rcases hr : rewriteRow mapping fc pi r with _ | r'
      · simp [writeRows, hf, hr] at h
      · simp only [writeRows, hf, if_false, hr] at h ⊢
        simp only [optionMapM, hr]
        rw [ih (n + 1) h]
        rfl

/-- **C2 (amended).** The original file is never truncated or partially
rewritten: after the per-file pass — whatever row an induced failure
strikes at — the original path holds either its old bytes or the complete
successful rewrite, the latter only via the atomic replace.  (The
`.tmp` sibling, by contrast, is *not* cleaned up on the skip and failure
paths; see the counterexample.) -/
theorem rewrite_all_or_nothing (mapping : List (String × String))
    (failAt : Option Nat) (fs : FS) (path content : String)
    (hc : fs path = some content) :
    processProteinFile mapping failAt fs path path = some content
      ∨ processProteinFile mapping failAt fs path path
          = fullRewrite mapping content := by
  simp only [processProteinFile, hc]
  by_cases hp : "protein" ∈ (parseTSV content).headD []
  · simp only [if_pos hp]
    by_cases hw : (writeRows mapping ((parseTSV content).headD []).length
        (pyIndex "protein" ((parseTSV content).headD []))
        failAt (parseTSV content).tail 0).2 = true
    · right
      simp only [if_pos hw, fsErase, fsSet, if_neg (ne_append_tmp path), if_pos rfl]
      rw [fullRewrite]
      simp only [if_pos hp]
      rw [writeRows_complete mapping _ _ failAt _ 0 hw]
      rfl
    · left
      simp only [if_neg hw, fsSet, if_neg (ne_append_tmp path)]
      exact hc
  · left
    simp only [if_neg hp, fsSet, if_neg (ne_append_tmp path)]
    exact hc

/-- Witness for C2's amended theorem: the pass over a concrete file with
an induced failure before the first row leaves the original bytes in
place. -/
theorem rewrite_all_or_nothing_witness :
    processProteinFile [("P1", "GENEA")] (some 0)
        (fun q => if q = "out/proteins.tsv"
          then some "protein\tq_value\nP1\t0.01\n" else none)
        "out/proteins.tsv" "out/proteins.tsv"
      = some "protein\tq_value\nP1\t0.01\n"
      ∨ processProteinFile [("P1", "GENEA")] (some 0)
          (fun q => if q = "out/proteins.tsv"
            then some "protein\tq_value\nP1\t0.01\n" else none)
          "out/proteins.tsv" "out/proteins.tsv"
        = fullRewrite [("P1", "GENEA")] "protein\tq_value\nP1\t0.01\n" :=
  rewrite_all_or_nothing _ _ _ _ _ (by decide)

/-- **C2 (counterexample).** An induced failure just before the first row
is written leaves the `.tmp` sibling on disk (holding the rewritten
header), refuting "no `.tmp` artifact on disk after an induced
mid-rewrite failure". -/
theorem tmp_artifact_left_after_induced_failure :
    processProteinFile [("P1", "GENEA")] (some 0)
        (fun q => if q = "out/proteins.tsv"
          then some "protein\tq_value\nP1\t0.01\n" else none)
        "out/proteins.tsv" "out/proteins.tsv.tmp"
      = some "protein\tgene_name\tq_value\r\n" := by decide

/-- An accession's contribution to the `gene_name` field: one token when
the gene map resolves it to a non-empty name, nothing otherwise. -/
def resolveGene (mapping : List (String × String)) (acc : String) :
    Option String :=
  match List.lookup acc mapping with
  | some g => if g = "" then none else some g
  | none => none

theorem geneNameOf_eq_filterMap (mapping : List (String × String))
    (protein : String) :
    geneNameOf mapping protein
      = pyJoin ";" ((pySplit ';' protein).filterMap (resolveGene mapping)) := by
  unfold geneNameOf
  congr 1
  induction pySplit ';' protein with
  | nil => rfl
  | cons a as ih =>
    simp only [List.map_cons, List.filter_cons, List.filterMap_cons]
    rcases hl : List.lookup a mapping with _ | g
    · simp [lookupGene, resolveGene, hl, ih]
    · by_cases hg : g = ""
      · simp [lookupGene, resolveGene, hl, hg, ih]
      · simp [lookupGene, resolveGene, hl, hg, ih]

/-- **C4.** In every successfully rewritten row the `protein` cell is
untouched, and the new `gene_name` cell (inserted right after it) is the
`;`-joined, order-preserving image of the original `protein` cell's
accessions: one token per accession the gene map resolves, no token for
an unresolved accession. -/
theorem rewritten_gene_field (mapping : List (String × String))
    (fieldCount protIdx : Nat) (cells out : List String)
    (h : rewriteRow mapping fieldCount protIdx cells = some out) :
    out[protIdx]? = cells[protIdx]?
      ∧ ∃ protein, cells[protIdx]? = some protein
          ∧ out[protIdx + 1]?
              = some (pyJoin ";"
                  ((pySplit ';' protein).filterMap (resolveGene mapping))) := by
  unfold rewriteRow at h
  split at h
  · exact absurd h (by simp)
  · rcases hpc : cells[protIdx]? with _ | protein
    · rw [hpc] at h
      exact absurd h (by simp)
    · rw [hpc] at h
      have hout := (Option.some_inj.mp h).symm
      have hpi : protIdx < cells.length := by
        by_contra hh
        push_neg at hh
        rw [List.getElem?_eq_none hh] at hpc
        exact absurd hpc (by simp)
      have hplen : protIdx + 1
          ≤ (cells ++ List.replicate (fieldCount - cells.length) "").length := by
        rw [List.length_append]
        omega
      have htake : ((cells ++ List.replicate (fieldCount - cells.length) "").take
          (protIdx + 1)).length = protIdx + 1 := by
        rw [List.length_take]
        omega
      refine ⟨?_, protein, rfl, ?_⟩
      · rw [hout, List.getElem?_append, if_pos (by omega : protIdx < _)]
        rw [List.getElem?_take, if_pos (Nat.lt_succ_self protIdx)]
        rw [List.getElem?_append, if_pos hpi]
        exact hpc
      · rw [hout, List.getElem?_append_right (le_of_eq htake), htake]
        simp [geneNameOf_eq_filterMap]

/-- Witness for C4, scenario C of the spec: `protein=P1;P2;DECOY_P3` with
gene map `{P1: GENEA, P2: GENEB}` rewrites to an unchanged `protein` cell
and `gene_name=GENEA;GENEB`. -/
theorem rewritten_gene_field_witness :
    rewriteRow [("P1", "GENEA"), ("P2", "GENEB")] 2 0 ["P1;P2;DECOY_P3", "0.5"]
        = some ["P1;P2;DECOY_P3", "GENEA;GENEB", "0.5"]
      ∧ ((["P1;P2;DECOY_P3", "GENEA;GENEB", "0.5"] : List String)[0]?
            = (["P1;P2;DECOY_P3", "0.5"] : List String)[0]?
          ∧ ∃ protein,
              (["P1;P2;DECOY_P3", "0.5"] : List String)[0]? = some protein
              ∧ (["P1;P2;DECOY_P3", "GENEA;GENEB", "0.5"] : List String)[1]?
                  = some (pyJoin ";" ((pySplit ';' protein).filterMap
                      (resolveGene [("P1", "GENEA"), ("P2", "GENEB")])))) :=
  ⟨by decide,
    rewritten_gene_field [("P1", "GENEA"), ("P2", "GENEB")] 2 0
      ["P1;P2;DECOY_P3", "0.5"] ["P1;P2;DECOY_P3", "GENEA;GENEB", "0.5"]
      (by decide)⟩

/-! ## The driver: `run_triqler`

The external converters and the quantification engine are black boxes;
the pipeline only branches on their exit codes, so a run is modelled by
the configuration fields the control flow reads plus the two exit codes.
Error-channel semantics follow the host language: `click.UsageError`
makes the process exit with code 2, an uncaught `RuntimeError` makes the
interpreter exit with code 1, and `sys.exit(n)` exits with `n`. -/

inductive InputFormat
  | triqler
  | diann
  | maxquant
deriving DecidableEq

/-- The configuration fields `run_triqler`'s control flow inspects. -/
structure Config where
  input_format : InputFormat
  file_list_file : Option String
  write_spectrum_quants : Bool

/-- `input_format in ("diann", "maxquant")`. -/
def needsConversion (cfg : Config) : Bool :=
  cfg.input_format = InputFormat.diann ∨ cfg.input_format = InputFormat.maxquant

/-- The subprocesses the driver can spawn. -/
inductive Tool
  | converter
  | engine
deriving DecidableEq

/-- How a run terminates. -/
inductive Outcome
  | configError            -- `click.UsageError` raised before any conversion
  | converterError         -- `RuntimeError` raised on a converter's non-zero exit
  | engineError (code : Int) -- `sys.exit(result.returncode)`
  | success
deriving DecidableEq

/-- The process exit code of each outcome (host-language semantics:
`UsageError` → 2, uncaught exception → 1, `sys.exit(n)` → `n`). -/
def processExitCode : Outcome → Int
  | Outcome.configError => 2
  | Outcome.converterError => 1
  | Outcome.engineError c => c
  | Outcome.success => 0

/-- Whether `add_gene_names` is reached on this outcome (it is the last
stage, after the engine's exit-code check and the spectrum move). -/
def annotationRuns : Outcome → Bool
  | Outcome.success => true
  | _ => false

/-- Lines 211–282 of the source: the control flow of `run_triqler` as a
function of the exit codes of the two external tools. -/
def pipelineOutcome (cfg : Config) (convCode engineCode : Int) : Outcome :=
  if needsConversion cfg then
    if cfg.file_list_file = none then Outcome.configError
    else if convCode ≠ 0 then Outcome.converterError
    else if engineCode ≠ 0 then Outcome.engineError engineCode
    else Outcome.success
  else if engineCode ≠ 0 then Outcome.engineError engineCode
  else Outcome.success

/-- The subprocesses actually spawned on a run, in order. -/
def spawnedTools (cfg : Config) (convCode : Int) : List Tool :=
  if needsConversion cfg then
    if cfg.file_list_file = none then []
    else if convCode ≠ 0 then [Tool.converter]
    else [Tool.converter, Tool.engine]
  else [Tool.engine]

/-- **C5.** For the `diann` and `maxquant` formats with no run-annotation
file, the run fails with the configuration error and no subprocess is
spawned — in particular no conversion is attempted. -/
theorem missing_file_list_fails_before_spawn (cfg : Config)
    (convCode engineCode : Int)
    (hfmt : needsConversion cfg = true)
    (hmiss : cfg.file_list_file = none) :
    pipelineOutcome cfg convCode engineCode = Outcome.configError
      ∧ spawnedTools cfg convCode = [] := by
  constructor
  · rw [pipelineOutcome, if_pos hfmt, if_pos hmiss]
  · rw [spawnedTools, if_pos hfmt, if_pos hmiss]

/-- Witness for C5: scenario A, `diann` format with no `--file_list_file`. -/
theorem missing_file_list_fails_before_spawn_witness :
    pipelineOutcome ⟨InputFormat.diann, none, false⟩ 0 0 = Outcome.configError
      ∧ spawnedTools ⟨InputFormat.diann, none, false⟩ 0 = [] :=
  missing_file_list_fails_before_spawn _ 0 0 (by decide) rfl

/-- **C3 (counterexample).** A converter exiting with code 2 aborts the
run through the raised `RuntimeError`, so the process exit code is 1, not
the converter's code: the exit code does not mirror a failing *converter*. -/
theorem converter_exit_code_not_mirrored :
    pipelineOutcome ⟨InputFormat.diann, some "files.txt", false⟩ 2 0
        = Outcome.converterError
      ∧ processExitCode
          (pipelineOutcome ⟨InputFormat.diann, some "files.txt", false⟩ 2 0)
          = 1
      ∧ processExitCode
          (pipelineOutcome ⟨InputFormat.diann, some "files.txt", false⟩ 2 0)
          ≠ 2 := by decide

/-- **C3 (amended).** A non-zero exit from an external tool aborts the
pipeline before the annotation stage; the process exit code mirrors the
*engine's* exit code exactly (so engine code 2 gives pipeline exit 2),
while a failing converter aborts with the fixed exit code 1 of the raised
error and the engine is never spawned. -/
theorem tool_failure_aborts_pipeline (cfg : Config) (convCode engineCode : Int) :
    (needsConversion cfg = true → cfg.file_list_file ≠ none → convCode ≠ 0 →
      pipelineOutcome cfg convCode engineCode = Outcome.converterError
        ∧ processExitCode (pipelineOutcome cfg convCode engineCode) = 1
        ∧ Tool.engine ∉ spawnedTools cfg convCode
        ∧ annotationRuns (pipelineOutcome cfg convCode engineCode) = false)
      ∧ (engineCode ≠ 0 →
          (needsConversion cfg = false
              ∨ (cfg.file_list_file ≠ none ∧ convCode = 0)) →
          pipelineOutcome cfg convCode engineCode = Outcome.engineError engineCode
            ∧ processExitCode (pipelineOutcome cfg convCode engineCode)
                = engineCode
            ∧ annotationRuns (pipelineOutcome cfg convCode engineCode) = false) := by
  constructor
  · intro hfmt hfl hcv
    have hout : pipelineOutcome cfg convCode engineCode
        = Outcome.converterError := by
      rw [pipelineOutcome, if_pos hfmt, if_neg hfl, if_pos hcv]
    refine ⟨hout, by rw [hout]; rfl, ?_, by rw [hout]; rfl⟩
    rw [spawnedTools, if_pos hfmt, if_neg hfl, if_pos hcv]
    simp
  · intro hec hconv
    have hout : pipelineOutcome cfg convCode engineCode
        = Outcome.engineError engineCode := by
      rcases hconv with hconv | ⟨hfl, hcv⟩
      · rw [pipelineOutcome, if_neg (by simp [hconv]), if_pos hec]
      · by_cases hfmt : needsConversion cfg = true
        · rw [pipelineOutcome, if_pos hfmt, if_neg hfl,
            if_neg (by simp [hcv]), if_pos hec]
        · rw [pipelineOutcome, if_neg (by simpa using hfmt), if_pos hec]
    exact ⟨hout, by rw [hout, processExitCode], by rw [hout]; rfl⟩

/-- Witness for C3's amended theorem: scenario D, the engine exits with
code 2 on a `triqler`-format run — the pipeline exits with code 2 and the
annotation stage does not run. -/
theorem tool_failure_aborts_pipeline_witness :
    pipelineOutcome ⟨InputFormat.triqler, none, false⟩ 0 2 = Outcome.engineError 2
      ∧ processExitCode (pipelineOutcome ⟨InputFormat.triqler, none, false⟩ 0 2)
          = 2
      ∧ annotationRuns (pipelineOutcome ⟨InputFormat.triqler, none, false⟩ 0 2)
          = false :=
  (tool_failure_aborts_pipeline ⟨InputFormat.triqler, none, false⟩ 0 2).2
    (by decide) (Or.inl (by decide))

/-! ## Spectrum-quants relocation (lines 284–291)

Paths handed to the program are modelled as relative to the process's
current working directory `cwd`; `resolve` turns them absolute, and
`os.path.join` on a directory without a trailing slash inserts one
separator. -/

/-- `os.path.join(dir, name)` for a plain directory path. -/
def pathJoin (dir name : String) : String := dir ++ "/" ++ name

/-- A relative path resolved against the current working directory. -/
def resolve (cwd p : String) : String := cwd ++ "/" ++ p

/-- `os.path.basename` (POSIX): everything after the last `/`. -/
def basename (p : String) : String := (pySplit '/' p).getLastD ""

/-- The root part of `os.path.splitext`: strip the extension after the
last dot, a leading run of dots not counting as an extension separator. -/
def splitextRoot (name : String) : String :=
  let cs := name.data
  let leading := cs.takeWhile (fun c => c = '.')
  let rest := cs.drop leading.length
  let afterRev := rest.reverse.dropWhile (fun c => c != '.')
  if afterRev.isEmpty then name
  else (leading ++ afterRev.tail.reverse).asString

/-- Line 285–286: `f"{base_name}.spectrum_quants.tsv"` with `base_name`
the extension-stripped *basename* of the engine's input file — a path
relative to the working directory, not to the input file's directory. -/
def spectrum_file (triqler_input_file : String) : String :=
  splitextRoot (basename triqler_input_file) ++ ".spectrum_quants.tsv"

/-- The engine's input path: the converted table inside the output
directory for `diann`/`maxquant`, the raw input file otherwise
(lines 213–222). -/
def triqlerInputFile (cfg : Config) (input_file output_dir : String) : String :=
  if needsConversion cfg then pathJoin output_dir "triqler_input.tsv"
  else input_file

/-- Lines 287–291: if the artifact exists at the computed (cwd-relative)
path it is moved to `output_dir/spectrum_quants.tsv`; otherwise only a
warning is printed.  The boolean records whether the move happened. -/
def spectrumStep (cwd triqler_input_file output_dir : String) (fs : FS) :
    FS × Bool :=
  let sf := resolve cwd (spectrum_file triqler_input_file)
  match fs sf with
  | some content =>
    (fsSet (fsErase fs sf) (resolve cwd (pathJoin output_dir "spectrum_quants.tsv"))
      content, true)
  | none => (fs, false)

/-- Lines 281–291: after the engine exits, the driver either propagates a
non-zero exit code or, on success, runs the (never-failing) spectrum
relocation when requested. -/
def runDriverTail (cfg : Config) (cwd input_file output_dir : String)
    (fs : FS) (engineCode : Int) : Outcome × FS :=
  if engineCode ≠ 0 then (Outcome.engineError engineCode, fs)
  else if cfg.write_spectrum_quants then
    (Outcome.success,
      (spectrumStep cwd (triqlerInputFile cfg input_file output_dir) output_dir fs).1)
  else (Outcome.success, fs)

/-- **C9 (counterexample).** With the artifact sitting *next to the input
file* (`data/in.tsv` → `data/in.spectrum_quants.tsv`), as the claim
describes the engine's behaviour, the driver — which resolves the bare
basename against the working directory — does not find it: nothing lands
in the output directory, the artifact stays where it was, and only the
warning branch runs (the run still succeeds). -/
theorem spectrum_beside_input_not_relocated :
    (runDriverTail ⟨InputFormat.triqler, none, true⟩ "/w" "data/in.tsv" "out"
        (fun q => if q = "/w/data/in.spectrum_quants.tsv"
          then some "spectrum" else none) 0).1
        = Outcome.success
      ∧ (fun q => if q = "/w/data/in.spectrum_quants.tsv"
            then some "spectrum" else (none : Option String))
            "/w/data/in.spectrum_quants.tsv" = some "spectrum"
      ∧ (runDriverTail ⟨InputFormat.triqler, none, true⟩ "/w" "data/in.tsv" "out"
          (fun q => if q = "/w/data/in.spectrum_quants.tsv"
            then some "spectrum" else none) 0).2
          "/w/out/spectrum_quants.tsv" = none
      ∧ (runDriverTail ⟨InputFormat.triqler, none, true⟩ "/w" "data/in.tsv" "out"
          (fun q => if q = "/w/data/in.spectrum_quants.tsv"
            then some "spectrum" else none) 0).2
          "/w/data/in.spectrum_quants.tsv" = some "spectrum" := by decide

/-- **C9 (amended).** When spectrum-level output is requested and the
engine exits successfully, the driver looks for the artifact under the
input file's extension-stripped basename plus the fixed suffix, resolved
against the current working directory; if present there it is moved to
`output_dir/spectrum_quants.tsv` (and removed from its source), if absent
the disk is untouched and only a warning is reported — the run succeeds
either way. -/
theorem spectrum_relocation_from_cwd (cfg : Config)
    (cwd input_file output_dir : String) (fs : FS)
    (hw : cfg.write_spectrum_quants = true) :
    (runDriverTail cfg cwd input_file output_dir fs 0).1 = Outcome.success
      ∧ (∀ content,
          fs (resolve cwd (spectrum_file
              (triqlerInputFile cfg input_file output_dir))) = some content →
          (runDriverTail cfg cwd input_file output_dir fs 0).2
              (resolve cwd (pathJoin output_dir "spectrum_quants.tsv"))
              = some content)
      ∧ (fs (resolve cwd (spectrum_file
            (triqlerInputFile cfg input_file output_dir))) = none →
          (runDriverTail cfg cwd input_file output_dir fs 0).2 = fs) := by
  refine ⟨?_, ?_, ?_⟩
  · simp [runDriverTail, hw]
  · intro content hsf
    simp only [runDriverTail, if_neg (by simp : ¬(0 : Int) ≠ 0), if_pos hw,
      spectrumStep, hsf]
    simp [fsSet]
  · intro hsf
    simp only [runDriverTail, if_neg (by simp : ¬(0 : Int) ≠ 0), if_pos hw,
      spectrumStep, hsf]

/-- Witness for C9's amended theorem: with the artifact in the working
directory, a `triqler`-format run relocates it into the output
directory. -/
theorem spectrum_relocation_from_cwd_witness :
    (runDriverTail ⟨InputFormat.triqler, none, true⟩ "/w" "in.tsv" "out"
        (fun q => if q = "/w/in.spectrum_quants.tsv" then some "S" else none)
        0).1 = Outcome.success
      ∧ (runDriverTail ⟨InputFormat.triqler, none, true⟩ "/w" "in.tsv" "out"
          (fun q => if q = "/w/in.spectrum_quants.tsv" then some "S" else none)
          0).2 "/w/out/spectrum_quants.tsv" = some "S" :=
  ⟨(spectrum_relocation_from_cwd ⟨InputFormat.triqler, none, true⟩ "/w" "in.tsv"
      "out" _ rfl).1,
    (spectrum_relocation_from_cwd ⟨InputFormat.triqler, none, true⟩ "/w" "in.tsv"
      "out" _ rfl).2.1 "S" (by decide)⟩

end TriqlerRunner
